import Mathlib

/-!
Shallow embedding of the SekaiBot dispatch engine (sekaibot/manager.py,
sekaibot/node.py, sekaibot/dependencies.py, sekaibot/internal/permission/
__init__.py) and proofs about the frozen specification claims.

The dispatch loop `NodeManager._handle_event` (manager.py:173-254) walks the
registry `bot.nodes_list` (a list of pairs `(node_class, pruning_node)`) per
event.  User-written `rule()` / `handle()` bodies are opaque code, so a node's
behaviour on the fixed event under dispatch is represented as data
(`NodeEntry`): the gate result of `_check_node`, the outcome of `rule()`
(a boolean or a raised control signal), the outcome of `handle()` and the
value of the instance `block` attribute when the `finally` block runs.

`sekaibot/exceptions.py` is not part of the sources; the classification of
`FinishException` by the manager's `except` chain is modelled from the spec
(see `resolveSignal`).
-/

set_option maxRecDepth 10000

namespace SekaiBot

/-- Control-flow signals a node may raise, mirroring the exception classes
used by the engine (StopException, SkipException, PruningException,
JumpToException, RejectException, FinishException); `error` stands for any
other exception escaping user code. -/
inductive Signal where
  | skip
  | stop
  | prune
  | finish
  | reject
  | jumpTo (node : String)
  | error
deriving DecidableEq, Repr

/-- Outcome of `await _node.rule()` (manager.py:211): the user body either
returns a boolean or raises a signal. -/
inductive RuleRes where
  | ret (b : Bool)
  | raised (s : Signal)
deriving DecidableEq, Repr

/-- Behaviour of one registry entry `(node_class, pruning_node)` on the event
under dispatch (manager.py:184).

* `name` — `node_class.__name__` (equal to the instance property `name`).
* `pruning` — the jump-table entry `pruning_node`; the sentinel `-1`
  produced for entries without a recorded prune target is written `none`
  (manager.py:227 tests `pruning_node != -1`).
* `check` — the result of `_check_node` (manager.py:123-171): event-type,
  permission and rule-gate checks, with any exception folded to `False`.
* `ruleRes` — `await _node.rule()` (manager.py:211): either a boolean or a
  raised signal.  A dependency-resolution failure in
  `solve_dependencies_in_bot` (manager.py:196) behaves like
  `.raised Signal.error` (a generic exception before `handle()` runs).
* `handleRes` — `await _node.handle()` (manager.py:214): `none` for a
  normal return, `some s` when the body raises `s`.
* `blockAfter` — the value of `_node.block` when the `finally` block at
  manager.py:215-218 runs (the class attribute unless `handle()` assigned
  the instance attribute).
* `initState` — the value returned by `_node.__init_state__()`
  (manager.py:208). -/
structure NodeEntry where
  name : String
  pruning : Option Nat
  check : Bool
  ruleRes : RuleRes
  handleRes : Option Signal
  blockAfter : Bool
  initState : Option Nat
deriving DecidableEq, Repr

/-- State store visible to the dispatch loop: `node_state` is the outer
`defaultdict(lambda: defaultdict(lambda: None))` (manager.py:55), recorded
as an association list from node name to the `NODE_STATE` slot of the inner
dict (`none` stands for a missing or `None` slot, which Python's
`defaultdict(lambda: None)` makes observationally identical). -/
structure DState where
  nodeState : List (String × Option Nat)
deriving DecidableEq, Repr

/-- Association-list lookup for the state store. -/
def lookupS : List (String × Option Nat) → String → Option (Option Nat)
  | [], _ => none
  | (k, v) :: rest, n => if k = n then some v else lookupS rest n

/-- Association-list overwrite for the state store. -/
def setS : List (String × Option Nat) → String → Option Nat → List (String × Option Nat)
  | [], n, v => [(n, v)]
  | (k, w) :: rest, n, v => if k = n then (n, v) :: rest else (k, w) :: setS rest n v

/-- Auto-vivification performed by `self.node_state[node_class.__name__]`
(manager.py:191, manager.py:200): reading a missing key of a `defaultdict`
inserts the default value. -/
def vivify (st : DState) (name : String) : DState :=
  if (lookupS st.nodeState name).isSome then st
  else { nodeState := st.nodeState ++ [(name, none)] }

/-- Index lookup used by the `JumpToException` handler (manager.py:230):
`{s.__name__: i for i, (s, _) in enumerate(_nodes_list)}.get(name)`;
a later entry with the same name overwrites an earlier one. -/
def indexOfName (nodes : List NodeEntry) (nm : String) : Option Nat :=
  nodes.enum.foldl (fun acc p => if p.2.name = nm then some p.1 else acc) none

/-- Warning emitted at manager.py:235. -/
def warnJumpBefore : String := "The node to jump to is before the current node"

/-- Warning emitted at manager.py:238. -/
def warnJumpMissing : String := "The node to jump to does not exist"

/-- Next-index resolution of a raised signal, mirroring the `except` chain at
manager.py:219-244:

* `SkipException` → `index + 1`;
* `StopException` → terminate (`break`);
* `PruningException` → the jump-table entry when it is not the `-1`
  sentinel, else `None` which makes the loop `break` (manager.py:225-227,
  246-249);
* `JumpToException` → the target's index when it exists and is strictly
  greater than the current index, else a warning and `index + 1`
  (manager.py:228-239);
* `FinishException` → modelled from the spec (exceptions.py is not in the
  sources): finish ends the chain for this event exactly like stop, so it
  is resolved by the stop branch;
* `RejectException` and any other exception → logged, `index + 1`
  (manager.py:240-242). -/
def resolveSignal (nodes : List NodeEntry) (index : Nat) (pruning : Option Nat) :
    Signal → Option Nat × List String
  | .skip => (some (index + 1), [])
  | .stop => (none, [])
  | .finish => (none, [])
  | .prune => (pruning, [])
  | .jumpTo nm =>
    match indexOfName nodes nm with
    | some j => if index < j then (some j, []) else (some (index + 1), [warnJumpBefore])
    | none => (some (index + 1), [warnJumpMissing])
  | .reject => (some (index + 1), [])
  | .error => (some (index + 1), [])

/-- Observables of one loop iteration. -/
structure Step where
  index : Nat
  ranHandle : Bool
  handleSig : Option Signal
  blockAfter : Option Bool
  initCalled : Bool
  warns : List String
deriving DecidableEq, Repr

/-- Result of one loop iteration: the recorded step, the next index
(`none` = `break`) and the updated state store. -/
structure IterResult where
  step : Step
  next : Option Nat
  st : DState
deriving DecidableEq, Repr

/-- One iteration of the dispatch loop body (manager.py:184-249) at `index`
for registry entry `e`:

1. building the `_check_node` argument reads `self.node_state[name]`,
   auto-vivifying the key (manager.py:191);
2. a failed gate raises `PruningException` (manager.py:193);
3. otherwise the state-initialisation check at manager.py:207 runs
   (`if _node.name not in self.node_state`), invoking `__init_state__` and
   storing a non-`None` result when the name is absent;
4. `rule()` runs; on `True`, `handle()` runs inside
   `try ... finally: if _node.block: break` (manager.py:211-218) — a
   `break` in a `finally` discards any in-flight exception;
5. raised signals are resolved by the `except` chain (`resolveSignal`), a
   normal iteration falls through to `next_index = index + 1`
   (manager.py:243-244). -/
def iter (nodes : List NodeEntry) (index : Nat) (e : NodeEntry) (st : DState) : IterResult :=
  let st1 := vivify st e.name
  if e.check = false then
    let rs := resolveSignal nodes index e.pruning .prune
    { step := { index := index, ranHandle := false, handleSig := none, blockAfter := none,
                initCalled := false, warns := rs.2 },
      next := rs.1, st := st1 }
  else
    let initNow := (lookupS st1.nodeState e.name).isNone
    let st2 :=
      if initNow then
        match e.initState with
        | some v => { nodeState := setS st1.nodeState e.name (some v) }
        | none => st1
      else st1
    match e.ruleRes with
    | .raised s =>
      let rs := resolveSignal nodes index e.pruning s
      { step := { index := index, ranHandle := false, handleSig := none, blockAfter := none,
                  initCalled := initNow, warns := rs.2 },
        next := rs.1, st := st2 }
    | .ret false =>
      { step := { index := index, ranHandle := false, handleSig := none, blockAfter := none,
                  initCalled := initNow, warns := [] },
        next := some (index + 1), st := st2 }
    | .ret true =>
      if e.blockAfter then
        { step := { index := index, ranHandle := true, handleSig := e.handleRes,
                    blockAfter := some true, initCalled := initNow, warns := [] },
          next := none, st := st2 }
      else
        match e.handleRes with
        | none =>
          { step := { index := index, ranHandle := true, handleSig := none,
                      blockAfter := some false, initCalled := initNow, warns := [] },
            next := some (index + 1), st := st2 }
        | some s =>
          let rs := resolveSignal nodes index e.pruning s
          { step := { index := index, ranHandle := true, handleSig := some s,
                      blockAfter := some false, initCalled := initNow, warns := rs.2 },
            next := rs.1, st := st2 }

/-- The dispatch loop `while index < len(_nodes_list)` (manager.py:183-249),
fuel-based because jump-table entries need not decrease the index.  Returns
the recorded steps in visitation order and the final state store. -/
def dispatch (nodes : List NodeEntry) : Nat → Nat → DState → List Step × DState
  | 0, _, st => ([], st)
  | fuel + 1, index, st =>
    match nodes[index]? with
    | none => ([], st)
    | some e =>
      let r := iter nodes index e st
      match r.next with
      | none => ([r.step], r.st)
      | some k =>
        let rest := dispatch nodes fuel k r.st
        (r.step :: rest.1, rest.2)

/-- Result of `_handle_event` for one event: whether the pre/post-processing
hooks ran, the recorded dispatch steps, and the final state store. -/
structure HandleEventResult where
  preHooks : Bool
  steps : List Step
  postHooks : Bool
  st : DState
deriving DecidableEq, Repr

/-- The whole of `NodeManager._handle_event` (manager.py:173-254) for one
event: `if current_event.__handled__: return` (manager.py:174-175) skips
everything — hooks included — when the event has been claimed; otherwise the
pre-processing hooks run, the loop walks the registry from index 0, then the
post-processing hooks run. -/
def handleEvent (handled : Bool) (nodes : List NodeEntry) (fuel : Nat)
    (st : DState) : HandleEventResult :=
  if handled then
    { preHooks := false, steps := [], postHooks := false, st := st }
  else
    let r := dispatch nodes fuel 0 st
    { preHooks := true, steps := r.1, postHooks := true, st := r.2 }

/-! Permission composer (sekaibot/internal/permission/__init__.py:43-88).

`Permission.__call__` returns `True` immediately when the checker set is
empty; otherwise every checker is started as a task of one anyio task group
under `catch({SkipException: handler})`.  A checker returning `True` sets
`result = True` and cancels the group's scope, so checkers not yet run are
abandoned; a checker raising `SkipException` aborts the task group (anyio
cancels the sibling tasks when a child task raises) and the handler then
sets `result = False` unconditionally.  Under the cooperative single-thread
scheduling model the checkers run in their start order, each to completion
unless the scope was cancelled first; `permLoop` is that sequentialised
schedule over the list of checker outcomes. -/

/-- Outcome of one permission checker: a returned boolean, or the
`SkipException` abstention signal. -/
inductive COut where
  | ret (b : Bool)
  | skip
deriving DecidableEq, Repr

/-- Sequentialised run of the checker tasks: the first `True` sets the
result and cancels the remaining tasks; a raised `SkipException` aborts the
group (remaining tasks cancelled) and the `catch` handler forces
`result = False`; a returned `False` leaves `result` untouched. -/
def permLoop : List COut → Bool
  | [] => false
  | .ret true :: _ => true
  | .ret false :: rest => permLoop rest
  | .skip :: _ => false

/-- `Permission.__call__` (permission/__init__.py:43-88): empty checker set
returns `True` without running anything, otherwise the task-group run. -/
def permCall (checkers : List COut) : Bool :=
  if checkers.isEmpty then true else permLoop checkers

/-! Dependency resolver (sekaibot/dependencies.py:87-181).

`solve_dependencies(dependent, use_cache, stack, dependency_cache)` first
returns the cached value when `use_cache and dependent in dependency_cache`
(line 108); otherwise it resolves the sub-dependencies recorded on the
declaration (class fields holding `InnerDepends`, lines 111-136, or function
parameters whose default is an `InnerDepends`, lines 146-168 — each carrying
its own `use_cache` flag) against the same cache, then invokes the
declaration, and finally stores the result under the declaration's identity
unconditionally: `dependency_cache[dependent] = depend` (line 180).

The embedding represents a declaration by its identity (the Python cache is
keyed by object identity) together with an environment mapping each
declaration to its list of `(sub-declaration, use_cache)` slots — the shape
shared by the class-field and function-parameter branches — and an
invocation by drawing a fresh value from a counter, so re-invocation versus
cache reuse is observable.  Resolution is fuel-bounded because nothing in
the source rules out cyclic declarations. -/

/-- Identity of a dependency declaration. -/
abbrev DepId := Nat

/-- Environment: each declaration's ordered `InnerDepends` slots (a class's
annotated fields, dependencies.py:115-129, or a function's parameters with
`InnerDepends` defaults, dependencies.py:150-158), each slot carrying its
`use_cache` flag.  Declarations absent from the environment have no
sub-dependencies. -/
abbrev DepEnv := List (DepId × List (DepId × Bool))

/-- Slots of a declaration in the environment. -/
def slotsOf (env : DepEnv) (d : DepId) : List (DepId × Bool) :=
  match env.lookup d with
  | some l => l
  | none => []

/-- Resolver state: the dependency cache (association list keyed by
declaration identity), a counter supplying the fresh value each invocation
produces, and the log of invoked declarations in order. -/
structure RSt where
  cache : List (DepId × Nat)
  counter : Nat
  invoked : List DepId
deriving DecidableEq, Repr

/-- Cache lookup by declaration identity. -/
def lookupDep : List (DepId × Nat) → DepId → Option Nat
  | [], _ => none
  | (k, v) :: rest, d => if k = d then some v else lookupDep rest d

mutual

/-- `solve_dependencies` (dependencies.py:87-181): the cached value is
returned only under `use_cache` (line 108); otherwise the declaration's
sub-dependency slots are resolved against the same cache, the declaration
is invoked (yielding a fresh value), and the result is stored into the
cache unconditionally: `dependency_cache[dependent] = depend` (line 180).
Returns `none` only on fuel exhaustion. -/
def solve (env : DepEnv) : Nat → DepId → Bool → RSt → Option (Nat × RSt)
  | 0, _, _, _ => none
  | fuel + 1, d, useCache, st =>
    if useCache = true ∧ (lookupDep st.cache d).isSome then
      some ((lookupDep st.cache d).getD 0, st)
    else
      match solveParams env fuel (slotsOf env d) st with
      | none => none
      | some st1 =>
        some (st1.counter,
          { cache := (d, st1.counter) :: st1.cache, counter := st1.counter + 1,
            invoked := st1.invoked ++ [d] })

/-- Resolution of a declaration's `InnerDepends` slots in order, propagating
the same cache (dependencies.py:124-129, 152-158); each slot is resolved
with its own `use_cache` flag. -/
def solveParams (env : DepEnv) : Nat → List (DepId × Bool) → RSt → Option RSt
  | _, [], st => some st
  | 0, _ :: _, _ => none
  | fuel + 1, (sd, uc) :: rest, st =>
    match solve env fuel sd uc st with
    | none => none
    | some r => solveParams env fuel rest r.2

end

/-! Event intake and rendezvous (manager.py:102-121, 291-352).

`get` loops on the condition variable; each wake runs the claim check at
manager.py:338-348 while holding the condition: the slot `_current_event`
must hold an event whose `__handled__` flag is still false, whose type
matches `event_type` when given, and which satisfies the predicate; on
success the flag is set and the event returned.  Events are identified by
an id so that the per-event `__handled__` flag is a set of claimed ids. -/

/-- Event as the rendezvous sees it: identity, type tag and session id. -/
structure Ev where
  id : Nat
  type : String
  session : String
deriving DecidableEq, Repr

/-- Rendezvous state: the slot `_current_event` and the set of event ids
whose `__handled__` flag is true. -/
structure RvState where
  current : Option Ev
  handledIds : List Nat
deriving DecidableEq, Repr

/-- One wake of a `get` call (manager.py:338-348): the claim check and, on
success, the `__handled__ = True` write, both under the condition lock. -/
def tryGet (pred : Ev → Bool) (etype : Option String) (st : RvState) :
    Option Ev × RvState :=
  match st.current with
  | none => (none, st)
  | some e =>
    if e.id ∉ st.handledIds
        ∧ (etype = none ∨ etype = some e.type) ∧ pred e = true then
      (some e, { st with handledIds := e.id :: st.handledIds })
    else
      (none, st)

/-- Interleaved rendezvous operations: the intake consumer setting the slot
(manager.py:107-109) and a `get` waiter's wake (one claim check). -/
inductive RvOp where
  | publish (e : Ev)
  | getWake (pred : Ev → Bool) (etype : Option String)

/-- Run of a sequence of rendezvous operations, collecting the events
returned by the `get` wakes in order. -/
def runOps : List RvOp → RvState → RvState × List Ev
  | [], st => (st, [])
  | .publish e :: rest, st => runOps rest { st with current := some e }
  | .getWake p t :: rest, st =>
    let r := tryGet p t st
    let tail := runOps rest r.2
    (tail.1, r.1.toList ++ tail.2)

/-! Unfolding equations of the dispatch loop. -/

/-- Fuel exhaustion yields no further steps. -/
theorem dispatch_zero (nodes : List NodeEntry) (i : Nat) (st : DState) :
    dispatch nodes 0 i st = ([], st) := rfl

/-- The loop ends when the index leaves the registry (`while index < len`). -/
theorem dispatch_out (nodes : List NodeEntry) (fuel i : Nat) (st : DState)
    (h : nodes[i]? = none) : dispatch nodes (fuel + 1) i st = ([], st) := by
  unfold dispatch
  rw [h]

/-- The loop ends after an iteration whose control resolution is `break`. -/
theorem dispatch_break (nodes : List NodeEntry) (fuel i : Nat) (st : DState) (e : NodeEntry)
    (h : nodes[i]? = some e) (h2 : (iter nodes i e st).next = none) :
    dispatch nodes (fuel + 1) i st = ([(iter nodes i e st).step], (iter nodes i e st).st) := by
  unfold dispatch
  rw [h]
  simp only [h2]

/-- The loop continues at the resolved next index. -/
theorem dispatch_cont (nodes : List NodeEntry) (fuel i : Nat) (st : DState) (e : NodeEntry)
    (k : Nat) (h : nodes[i]? = some e) (h2 : (iter nodes i e st).next = some k) :
    dispatch nodes (fuel + 1) i st =
      ((iter nodes i e st).step :: (dispatch nodes fuel k (iter nodes i e st).st).1,
        (dispatch nodes fuel k (iter nodes i e st).st).2) := by
  conv_lhs => unfold dispatch
  rw [h]
  simp only [h2]

/-- An iteration whose recorded `block` flag is true at the `finally`
(manager.py:217-218) breaks the loop. -/
theorem iter_block_next_none (nodes : List NodeEntry) (i : Nat) (e : NodeEntry) (st : DState)
    (h : (iter nodes i e st).step.blockAfter = some true) :
    (iter nodes i e st).next = none := by
  obtain ⟨nm, pr, ck, rr, hr, ba, si⟩ := e
  cases ck <;> [skip; cases rr] <;> simp_all [iter]
  case ret b =>
    cases b <;> simp_all [iter]
    cases ba <;> simp_all [iter]
    cases hr <;> simp_all [iter]

/-- An iteration whose `handle()` raised `FinishException` breaks the loop:
either the `finally` breaks (block true) or the stop-like resolution of
finish does. -/
theorem iter_finish_next_none (nodes : List NodeEntry) (i : Nat) (e : NodeEntry) (st : DState)
    (h : (iter nodes i e st).step.handleSig = some .finish) :
    (iter nodes i e st).next = none := by
  obtain ⟨nm, pr, ck, rr, hr, ba, si⟩ := e
  cases ck <;> [skip; cases rr] <;> simp_all [iter]
  case ret b =>
    cases b <;> simp_all [iter]
    cases ba <;> simp_all [iter]
    cases hr <;> simp_all [iter, resolveSignal]

/-- Appending a fresh key to an association list makes it found. -/
theorem lookupS_append_none (l : List (String × Option Nat)) (n : String) (v : Option Nat)
    (h : lookupS l n = none) : lookupS (l ++ [(n, v)]) n = some v := by
  induction l with
  | nil => simp [lookupS]
  | cons p rest ih =>
    rw [lookupS] at h
    by_cases hk : p.1 = n
    · simp [hk] at h
    · obtain ⟨k, w⟩ := p
      simp only [List.cons_append, lookupS]
      simp only at hk
      rw [if_neg hk] at h ⊢
      exact ih h

/-- After the auto-vivifying read, the key is present in the state store. -/
theorem lookupS_vivify_isSome (st : DState) (n : String) :
    (lookupS (vivify st n).nodeState n).isSome = true := by
  unfold vivify
  cases hx : lookupS st.nodeState n with
  | some v => simp [hx]
  | none => simp [hx, lookupS_append_none st.nodeState n none hx]

/-- The state-initialisation branch at manager.py:207-210 never fires: the
`defaultdict` reads at manager.py:191/200 have already inserted the node's
key before the `not in` membership test runs. -/
theorem iter_initCalled_false (nodes : List NodeEntry) (i : Nat) (e : NodeEntry) (st : DState) :
    (iter nodes i e st).step.initCalled = false := by
  obtain ⟨nm, pr, ck, rr, hr, ba, si⟩ := e
  have hl := lookupS_vivify_isSome st nm
  cases ck <;> [skip; cases rr] <;> simp_all [iter, Option.isNone_eq_false_iff]
  case ret b =>
    cases b <;> simp_all [iter, Option.isNone_eq_false_iff]
    cases ba <;> simp_all [iter]
    cases hr <;> simp_all [iter]

/-- Any step satisfying a break-forcing property is the last recorded step
of the dispatch. -/
theorem dispatch_last_of_break (P : Step → Prop) (nodes : List NodeEntry)
    (hP : ∀ i e st, P (iter nodes i e st).step → (iter nodes i e st).next = none) :
    ∀ fuel i0 st (l₁ : List Step) s l₂,
      (dispatch nodes fuel i0 st).1 = l₁ ++ s :: l₂ → P s → l₂ = [] := by
  intro fuel
  induction fuel with
  | zero =>
    intro i0 st l₁ s l₂ h _
    rw [dispatch_zero] at h
    cases l₁ <;> simp_all
  | succ f ih =>
    intro i0 st l₁ s l₂ h hs
    cases hidx : nodes[i0]? with
    | none =>
      rw [dispatch_out nodes f i0 st hidx] at h
      cases l₁ <;> simp_all
    | some e =>
      cases hnext : (iter nodes i0 e st).next with
      | none =>
        rw [dispatch_break nodes f i0 st e hidx hnext] at h
        cases l₁ with
        | nil =>
          simp only [List.nil_append] at h
          exact (List.cons_eq_cons.mp h).2.symm
        | cons a l₁' =>
          simp only [List.cons_append] at h
          have h2 := (List.cons_eq_cons.mp h.symm).2
          exact absurd h2 (List.append_ne_nil_of_right_ne_nil _ (List.cons_ne_nil s l₂))
      | some k =>
        rw [dispatch_cont nodes f i0 st e k hidx hnext] at h
        cases l₁ with
        | nil =>
          simp only [List.nil_append] at h
          have h1 := (List.cons_eq_cons.mp h).1
          have h2 := hP i0 e st (h1 ▸ hs)
          rw [hnext] at h2
          cases h2
        | cons a l₁' =>
          simp only [List.cons_append] at h
          exact ih k (iter nodes i0 e st).st l₁' s l₂ (List.cons_eq_cons.mp h).2 hs

/-! Concrete registries used by witnesses and counterexamples.  Every entry
passes the gate (`check = true`); fields follow `NodeEntry`'s order:
name, pruning, check, ruleRes, handleRes, blockAfter, initState. -/

/-- Scenario node `A(priority=0, block=false)`: matches, handles normally. -/
def scA : NodeEntry := ⟨"A", none, true, .ret true, none, false, none⟩

/-- Scenario node `B(priority=1, block=true)`: matches, handles normally,
its `block` flag is set. -/
def scB : NodeEntry := ⟨"B", none, true, .ret true, none, true, none⟩

/-- Scenario node `C(priority=2)`: matches, handles normally. -/
def scC : NodeEntry := ⟨"C", none, true, .ret true, none, false, none⟩

/-- Node whose `rule()` raises `StopException`; its jump-table entry points
at index 1, so a prune-path rerouting would visit the next node. -/
def cxStopRule : NodeEntry := ⟨"S", some 1, true, .raised .stop, none, false, none⟩

/-- Node whose `handle()` raises `FinishException`. -/
def cxFinish : NodeEntry := ⟨"F", none, true, .ret true, some .finish, false, none⟩

/-- Node whose `handle()` raises `JumpToException("C")`. -/
def cxJump : NodeEntry := ⟨"J", none, true, .ret true, some (.jumpTo "C"), false, none⟩

/-- Node whose `handle()` raises `PruningException` while its jump-table
entry is the `-1` sentinel (no recorded prune target). -/
def cxPrune : NodeEntry := ⟨"P", none, true, .ret true, some .prune, false, none⟩

/-- Node whose `__init_state__` returns the (non-`None`) value `7`. -/
def cxInit : NodeEntry := ⟨"N", none, true, .ret true, none, false, some 7⟩

/-- C1: if a node's `handle()` step ran and that node's `block` flag is true
afterwards, no node at a later index is visited for that event — any
recorded step with `ranHandle` and a true `block` flag at the `finally` is
the last step of the dispatch. -/
theorem blocking_handler_short_circuits (nodes : List NodeEntry) (fuel i0 : Nat)
    (st : DState) (l₁ l₂ : List Step) (s : Step)
    (hsplit : (dispatch nodes fuel i0 st).1 = l₁ ++ s :: l₂)
    (_hran : s.ranHandle = true) (hblock : s.blockAfter = some true) :
    l₂ = [] :=
  dispatch_last_of_break (fun t => t.blockAfter = some true) nodes
    (fun i e st h => iter_block_next_none nodes i e st h) fuel i0 st l₁ s l₂ hsplit hblock

/-- C1 witness: in the registry `[A(block=false), B(block=true), C]` with the
event matching all three, A and B run and C never runs; the theorem applies
at the step recorded for B. -/
theorem blocking_handler_short_circuits_witness :
    ((dispatch [scA, scB, scC] 5 0 ⟨[]⟩).1.map Step.index = [0, 1]
      ∧ (dispatch [scA, scB, scC] 5 0 ⟨[]⟩).1.map Step.ranHandle = [true, true])
    ∧ ([] : List Step) = [] :=
  ⟨by decide,
    blocking_handler_short_circuits [scA, scB, scC] 5 0 ⟨[]⟩
      [⟨0, true, none, some false, false, []⟩] [] ⟨1, true, none, some true, false, []⟩
      (by decide) (by decide) (by decide)⟩

/-- C2 counterexample: in the registry `[S, C]` where the `rule()` of `S`
raises the stop signal, dispatch visits only index 0 — it does not continue
to the remaining node — and no warning is logged, refuting the claim that
the engine logs a misuse warning, treats the rule as false and continues
dispatching. -/
theorem rule_stop_counterexample :
    (dispatch [cxStopRule, scC] 5 0 ⟨[]⟩).1.map Step.index = [0]
    ∧ (dispatch [cxStopRule, scC] 5 0 ⟨[]⟩).1.map Step.warns = [[]] := by
  decide

/-- C2 amended: a `StopException` raised inside `rule()` propagates out of
`await _node.rule()` (manager.py:211) to the `except StopException` branch
(manager.py:222-224): the whole dispatch terminates for this event,
`handle()` does not run, and no misuse warning is logged. -/
theorem rule_stop_terminates_dispatch (nodes : List NodeEntry) (i : Nat)
    (e : NodeEntry) (st : DState)
    (hc : e.check = true) (hr : e.ruleRes = .raised .stop) :
    (iter nodes i e st).next = none ∧ (iter nodes i e st).step.warns = []
    ∧ (iter nodes i e st).step.ranHandle = false := by
  simp [iter, resolveSignal, hc, hr]

/-- C2 amended witness: the amended behaviour at the concrete registry
`[S, C]`. -/
theorem rule_stop_terminates_dispatch_witness :
    (iter [cxStopRule, scC] 0 cxStopRule ⟨[]⟩).next = none
    ∧ (iter [cxStopRule, scC] 0 cxStopRule ⟨[]⟩).step.warns = []
    ∧ (iter [cxStopRule, scC] 0 cxStopRule ⟨[]⟩).step.ranHandle = false :=
  rule_stop_terminates_dispatch [cxStopRule, scC] 0 cxStopRule ⟨[]⟩ (by decide) (by decide)

/-- C3: a node whose `handle()` raises the finish signal ends the dispatch
chain for the event — the step recording the raised finish is the last step,
whatever the node's `block` flag (the `finally` breaks when it is true, the
stop-like resolution of finish breaks otherwise). -/
theorem finish_ends_chain (nodes : List NodeEntry) (fuel i0 : Nat)
    (st : DState) (l₁ l₂ : List Step) (s : Step)
    (hsplit : (dispatch nodes fuel i0 st).1 = l₁ ++ s :: l₂)
    (hsig : s.handleSig = some .finish) :
    l₂ = [] :=
  dispatch_last_of_break (fun t => t.handleSig = some .finish) nodes
    (fun i e st h => iter_finish_next_none nodes i e st h) fuel i0 st l₁ s l₂ hsplit hsig

/-- C3 witness: in the registry `[F, C]` where the `handle()` of `F` raises
finish, only index 0 is visited; the theorem applies at F's step. -/
theorem finish_ends_chain_witness :
    ((dispatch [cxFinish, scC] 5 0 ⟨[]⟩).1.map Step.index = [0])
    ∧ ([] : List Step) = [] :=
  ⟨by decide,
    finish_ends_chain [cxFinish, scC] 5 0 ⟨[]⟩
      [] [] ⟨0, true, some .finish, some false, false, []⟩ (by decide) (by decide)⟩

/-- C4: a node at index `i` that raises `jump_to(name)` (from `rule()` or
from a `handle()` whose node does not block) makes dispatch resume exactly
at `name`'s index when that index is strictly greater than `i`; when the
target is at or before `i`, or absent from the registry, a warning is
logged and dispatch resumes at `i + 1` (manager.py:228-239). -/
theorem jump_to_resolution (nodes : List NodeEntry) (i : Nat) (e : NodeEntry)
    (st : DState) (nm : String)
    (hc : e.check = true)
    (hsig : e.ruleRes = .raised (.jumpTo nm)
      ∨ (e.ruleRes = .ret true ∧ e.handleRes = some (.jumpTo nm) ∧ e.blockAfter = false)) :
    (∀ j, indexOfName nodes nm = some j →
        (i < j → (iter nodes i e st).next = some j ∧ (iter nodes i e st).step.warns = [])
        ∧ (j ≤ i → (iter nodes i e st).next = some (i + 1)
            ∧ (iter nodes i e st).step.warns = [warnJumpBefore]))
    ∧ (indexOfName nodes nm = none →
        (iter nodes i e st).next = some (i + 1)
        ∧ (iter nodes i e st).step.warns = [warnJumpMissing]) := by
  rcases hsig with h | ⟨h1, h2, h3⟩
  · refine ⟨fun j hj => ⟨fun hij => ?_, fun hij => ?_⟩, fun hj => ?_⟩
    · simp [iter, resolveSignal, hc, h, hj, hij]
    · simp [iter, resolveSignal, hc, h, hj, Nat.not_lt.mpr hij]
    · simp [iter, resolveSignal, hc, h, hj]
  · refine ⟨fun j hj => ⟨fun hij => ?_, fun hij => ?_⟩, fun hj => ?_⟩
    · simp [iter, resolveSignal, hc, h1, h2, h3, hj, hij]
    · simp [iter, resolveSignal, hc, h1, h2, h3, hj, Nat.not_lt.mpr hij]
    · simp [iter, resolveSignal, hc, h1, h2, h3, hj]

/-- C4 witness: `A` raises `jump_to("C")` in the registry `[J, B, C]`; the
loop body resolves the next index to 2 with no warning, and the full
dispatch visits exactly indices 0 and 2. -/
theorem jump_to_resolution_witness :
    ((iter [cxJump, scB, scC] 0 cxJump ⟨[]⟩).next = some 2
      ∧ (iter [cxJump, scB, scC] 0 cxJump ⟨[]⟩).step.warns = [])
    ∧ (dispatch [cxJump, scB, scC] 5 0 ⟨[]⟩).1.map Step.index = [0, 2] :=
  ⟨((jump_to_resolution [cxJump, scB, scC] 0 cxJump ⟨[]⟩ "C" (by decide)
      (Or.inr (by exact ⟨by decide, by decide, by decide⟩))).1 2 (by decide)).1 (by decide),
    by decide⟩

/-- C5 counterexample: in the registry `[P, C]` where `P`'s `handle()`
raises the prune signal and `P`'s jump-table entry is the `-1` sentinel
(no recorded target), dispatch ends after index 0 — index 1 is never
visited, refuting the claim that pruning with no recorded target falls
through to `i + 1`. -/
theorem prune_no_target_counterexample :
    (dispatch [cxPrune, scC] 5 0 ⟨[]⟩).1.map Step.index = [0]
    ∧ cxPrune.pruning = none := by
  decide

/-- C5 amended: a node that takes the prune path — a failed gate
(manager.py:193) or a raised `PruningException` from `rule()`/`handle()` —
makes dispatch resume at the jump-table target recorded for its index when
one is present; with no recorded target (the `-1` sentinel), `next_index`
becomes `None` and the loop breaks, ending the dispatch for the event
(manager.py:225-227, 246-249). -/
theorem prune_follows_table_or_ends (nodes : List NodeEntry) (i : Nat)
    (e : NodeEntry) (st : DState)
    (hsig : e.check = false
      ∨ (e.check = true ∧ (e.ruleRes = .raised .prune
          ∨ (e.ruleRes = .ret true ∧ e.handleRes = some .prune ∧ e.blockAfter = false)))) :
    (iter nodes i e st).next = e.pruning := by
  rcases hsig with h | ⟨hc, h | ⟨h1, h2, h3⟩⟩
  · simp [iter, resolveSignal, h]
  · simp [iter, resolveSignal, hc, h]
  · simp [iter, resolveSignal, hc, h1, h2, h3]

/-- C5 amended witness: with a recorded target the prune resumes there
(index 1 in a registry whose pruning entry for index 0 is 1); with the
sentinel the loop breaks. -/
theorem prune_follows_table_witness :
    (iter [cxStopRule, scC] 0 ⟨"S", some 1, true, .raised .prune, none, false, none⟩ ⟨[]⟩).next
      = some 1
    ∧ (iter [cxPrune, scC] 0 cxPrune ⟨[]⟩).next = none :=
  ⟨prune_follows_table_or_ends [cxStopRule, scC] 0
      ⟨"S", some 1, true, .raised .prune, none, false, none⟩ ⟨[]⟩
      (Or.inr ⟨by decide, Or.inl (by decide)⟩),
    prune_follows_table_or_ends [cxPrune, scC] 0 cxPrune ⟨[]⟩
      (Or.inr ⟨by decide, Or.inr ⟨by decide, by decide, by decide⟩⟩)⟩

/-- C8: the state-initialisation step never runs.  The claim says a node
whose state slot was never initialised has `__init_state__` invoked and its
non-`None` result stored; in the code the `defaultdict` reads at
manager.py:191/200 insert the node's key before the membership test
`if _node.name not in self.node_state` at manager.py:207, so the branch is
dead: no recorded step of any dispatch ever has `initCalled`. -/
theorem init_state_never_runs (nodes : List NodeEntry) :
    ∀ fuel i0 st s, s ∈ (dispatch nodes fuel i0 st).1 → s.initCalled = false := by
  intro fuel
  induction fuel with
  | zero =>
    intro i0 st s hs
    rw [dispatch_zero] at hs
    cases hs
  | succ f ih =>
    intro i0 st s hs
    cases hidx : nodes[i0]? with
    | none =>
      rw [dispatch_out nodes f i0 st hidx] at hs
      cases hs
    | some e =>
      cases hnext : (iter nodes i0 e st).next with
      | none =>
        rw [dispatch_break nodes f i0 st e hidx hnext] at hs
        simp only [List.mem_singleton] at hs
        exact hs ▸ iter_initCalled_false nodes i0 e st
      | some k =>
        rw [dispatch_cont nodes f i0 st e k hidx hnext] at hs
        simp only [List.mem_cons] at hs
        rcases hs with h | h
        · exact h ▸ iter_initCalled_false nodes i0 e st
        · exact ih k (iter nodes i0 e st).st s h

/-- C8 witness: concrete failing input — the registry `[N]` where
`__init_state__` returns 7 and the state store is empty; the single
recorded step did not invoke the initialiser, and the node's state slot
was only auto-vivified to `None` instead of being set to 7. -/
theorem init_state_never_runs_witness :
    ((dispatch [cxInit] 2 0 ⟨[]⟩).1.map Step.initCalled = [false]
      ∧ lookupS (dispatch [cxInit] 2 0 ⟨[]⟩).2.nodeState "N" = some none
      ∧ cxInit.initState = some 7)
    ∧ (⟨0, true, none, some false, false, []⟩ : Step).initCalled = false :=
  ⟨by decide,
    init_state_never_runs [cxInit] 2 0 ⟨[]⟩ ⟨0, true, none, some false, false, []⟩ (by decide)⟩

/-- Characterisation of the sequentialised checker run: it yields true
exactly when some checker returns true with only false-returning checkers
before it (no earlier abstention, which would abort the task group). -/
theorem permLoop_true_iff (cs : List COut) :
    permLoop cs = true
      ↔ ∃ pre post, cs = pre ++ COut.ret true :: post ∧ ∀ c ∈ pre, c = COut.ret false := by
  induction cs with
  | nil =>
    constructor
    · intro h
      exact Bool.noConfusion h
    · rintro ⟨pre, post, h, -⟩
      exact absurd h.symm (List.append_ne_nil_of_right_ne_nil pre (List.cons_ne_nil _ _))
  | cons c rest ih =>
    cases c with
    | ret b =>
      cases b with
      | true =>
        constructor
        · intro _
          exact ⟨[], rest, rfl, by intro c hc; cases hc⟩
        · intro _
          rfl
      | false =>
        have hstep : permLoop (COut.ret false :: rest) = permLoop rest := rfl
        rw [hstep, ih]
        constructor
        · rintro ⟨pre, post, heq, hpre⟩
          refine ⟨COut.ret false :: pre, post, by simp [heq], ?_⟩
          intro c hc
          rcases List.mem_cons.mp hc with h | h
          · exact h
          · exact hpre c h
        · rintro ⟨pre, post, heq, hpre⟩
          cases pre with
          | nil => simp at heq
          | cons a pre' =>
            simp only [List.cons_append, List.cons_eq_cons] at heq
            exact ⟨pre', post, heq.2, fun c hc => hpre c (List.mem_cons_of_mem a hc)⟩
    | skip =>
      constructor
      · intro h
        exact Bool.noConfusion h
      · rintro ⟨pre, post, heq, hpre⟩
        cases pre with
        | nil => simp at heq
        | cons a pre' =>
          simp only [List.cons_append, List.cons_eq_cons] at heq
          have ha := hpre a (List.mem_cons_self a pre')
          cases heq.1.trans ha

/-- C6 counterexample: the checker set containing an abstaining checker and
a true-returning checker evaluated in that schedule yields `false`, although
a checker returns true — the `SkipException` aborts the task group,
cancelling the sibling, and the handler forces `result = False` —, refuting
the claim that the gate is true whenever at least one checker returns true
and that a skip contributes nothing. -/
theorem perm_skip_counterexample :
    permCall [COut.skip, COut.ret true] = false
    ∧ COut.ret true ∈ [COut.skip, COut.ret true] := by
  decide

/-- C6 amended: an empty checker set returns true immediately; otherwise the
gate is true exactly when some checker returns true before any checker
abstains — the first true cancels the remaining checkers, but a raised
`SkipException` also cancels the remaining checkers and forces the result
to false. -/
theorem perm_true_before_skip (cs : List COut) :
    permCall cs = true
      ↔ cs = [] ∨ ∃ pre post, cs = pre ++ COut.ret true :: post
          ∧ ∀ c ∈ pre, c = COut.ret false := by
  cases cs with
  | nil => simp [permCall]
  | cons c rest =>
    rw [show permCall (c :: rest) = permLoop (c :: rest) from rfl, permLoop_true_iff]
    constructor
    · intro h
      exact Or.inr h
    · rintro (h | h)
      · cases h
      · exact h

/-- C6 amended witness: the vacuous gate and a first-true-after-false run,
through the amended theorem. -/
theorem perm_true_before_skip_witness :
    permCall [] = true ∧ permCall [COut.ret false, COut.ret true] = true :=
  ⟨(perm_true_before_skip []).mpr (Or.inl rfl),
    (perm_true_before_skip [COut.ret false, COut.ret true]).mpr
      (Or.inr ⟨[COut.ret false], [], rfl, by decide⟩)⟩

/-- Resolution only appends to the invocation log. -/
theorem solve_invoked_extends (env : DepEnv) :
    ∀ fuel,
      (∀ d u st v st', solve env fuel d u st = some (v, st')
        → ∃ l, st'.invoked = st.invoked ++ l)
      ∧ (∀ ps st st', solveParams env fuel ps st = some st'
        → ∃ l, st'.invoked = st.invoked ++ l) := by
  intro fuel
  induction fuel with
  | zero =>
    constructor
    · intro d u st v st' h
      cases h
    · intro ps st st' h
      cases ps with
      | nil =>
        cases h
        exact ⟨[], by simp⟩
      | cons p rest => cases h
  | succ f ih =>
    constructor
    · intro d u st v st' h
      simp only [solve] at h
      split at h
      · cases h
        exact ⟨[], by simp⟩
      · cases hp : solveParams env f (slotsOf env d) st with
        | none => rw [hp] at h; cases h
        | some st1 =>
          rw [hp] at h
          cases h
          obtain ⟨l, hl⟩ := ih.2 (slotsOf env d) st st1 hp
          exact ⟨l ++ [d], by simp [hl]⟩
    · intro ps st st' h
      cases ps with
      | nil =>
        cases h
        exact ⟨[], by simp⟩
      | cons p rest =>
        obtain ⟨sd, uc⟩ := p
        simp only [solveParams] at h
        cases hs : solve env f sd uc st with
        | none => rw [hs] at h; cases h
        | some r =>
          rw [hs] at h
          obtain ⟨l1, h1⟩ := ih.1 sd uc st r.1 r.2 (by rw [hs])
          obtain ⟨l2, h2⟩ := ih.2 rest r.2 st' h
          exact ⟨l1 ++ l2, by rw [h2, h1, List.append_assoc]⟩

/-- C7 counterexample: resolving declaration 7 with `use_cache=False` on an
empty cache stores the resolved value under the declaration
(`cache = [(7, 0)]`), and a later `use_cache=True` request of the same
declaration within the same cache returns that value without re-invoking
(the invocation log stays `[7]`) — refuting "never stored into the
dependency cache" and "does not reuse that value". -/
theorem use_cache_false_stored_cx :
    solve [] 3 7 false ⟨[], 0, []⟩ = some (0, ⟨[(7, 0)], 1, [7]⟩)
    ∧ solve [] 3 7 true ⟨[(7, 0)], 1, [7]⟩ = some (0, ⟨[(7, 0)], 1, [7]⟩) := by
  decide

/-- C7 amended: a `use_cache=False` resolution never returns a cached value
— the declaration is re-invoked (it is appended to the invocation log) —
but its resolved value IS stored into the dependency cache
(dependencies.py:180 stores unconditionally), so a later `use_cache=True`
request of the same declaration within the same cache reuses it without
re-invocation (dependencies.py:108). -/
theorem use_cache_false_reinvokes_and_stores (env : DepEnv) (fuel : Nat) (d : DepId)
    (st : RSt) (v : Nat) (st' : RSt)
    (h : solve env fuel d false st = some (v, st')) :
    lookupDep st'.cache d = some v
    ∧ (∃ l, st'.invoked = st.invoked ++ l ++ [d])
    ∧ (∀ w, lookupDep st.cache d = some w → solve env fuel d true st = some (w, st)) := by
  cases fuel with
  | zero => cases h
  | succ f =>
    simp only [solve] at h
    rw [if_neg (by simp)] at h
    cases hp : solveParams env f (slotsOf env d) st with
    | none => rw [hp] at h; cases h
    | some st1 =>
      rw [hp] at h
      cases h
      refine ⟨by simp [lookupDep], ?_, ?_⟩
      · obtain ⟨l, hl⟩ := (solve_invoked_extends env f).2 (slotsOf env d) st st1 hp
        exact ⟨l, by simp [hl]⟩
      · intro w hw
        simp [solve, hw]

/-- C7 amended witness: the amended behaviour at declaration 7 over the
empty cache, then at the populated cache. -/
theorem use_cache_false_witness :
    lookupDep (⟨[(7, 0)], 1, [7]⟩ : RSt).cache 7 = some 0
    ∧ (∃ l, (⟨[(7, 0)], 1, [7]⟩ : RSt).invoked = (⟨[], 0, []⟩ : RSt).invoked ++ l ++ [7])
    ∧ (∀ w, lookupDep (⟨[], 0, []⟩ : RSt).cache 7 = some w
        → solve [] 3 7 true ⟨[], 0, []⟩ = some (w, ⟨[], 0, []⟩)) :=
  use_cache_false_reinvokes_and_stores [] 3 7 ⟨[], 0, []⟩ 0 ⟨[(7, 0)], 1, [7]⟩ (by decide)

/-- A failed wake leaves the rendezvous state untouched. -/
theorem tryGet_none (p : Ev → Bool) (t : Option String) (st st2 : RvState)
    (h : tryGet p t st = (none, st2)) : st2 = st := by
  rcases hc : st.current with - | e
  · simp only [tryGet, hc] at h
    cases h
    rfl
  · simp only [tryGet, hc] at h
    by_cases hcond : (e.id ∉ st.handledIds ∧ (t = none ∨ t = some e.type) ∧ p e = true)
    · rw [if_pos hcond] at h
      injection h with h1 h2
      cases h1
    · rw [if_neg hcond] at h
      cases h
      rfl

/-- A successful wake returns the slot event, which was unclaimed, matched
the type filter and the predicate, and whose claim flag is now set. -/
theorem tryGet_some (p : Ev → Bool) (t : Option String) (st : RvState) (e : Ev)
    (st2 : RvState) (h : tryGet p t st = (some e, st2)) :
    st.current = some e ∧ e.id ∉ st.handledIds ∧ (t = none ∨ t = some e.type)
    ∧ p e = true ∧ st2.handledIds = e.id :: st.handledIds ∧ st2.current = st.current := by
  rcases hc : st.current with - | ev
  · simp only [tryGet, hc] at h
    injection h with h1 h2
    cases h1
  · simp only [tryGet, hc] at h
    by_cases hcond : (ev.id ∉ st.handledIds ∧ (t = none ∨ t = some ev.type) ∧ p ev = true)
    · rw [if_pos hcond] at h
      injection h with h1 h2
      injection h1 with h1
      subst h1
      subst h2
      exact ⟨rfl, hcond.1, hcond.2.1, hcond.2.2, rfl, rfl⟩
    · rw [if_neg hcond] at h
      injection h with h1 h2
      cases h1

/-- No rendezvous operation ever clears a claim flag. -/
theorem runOps_handled_mono : ∀ (ops : List RvOp) (st : RvState) (x : Nat),
    x ∈ st.handledIds → x ∈ (runOps ops st).1.handledIds := by
  intro ops
  induction ops with
  | nil =>
    intro st x h
    exact h
  | cons op rest ih =>
    intro st x h
    cases op with
    | publish e => exact ih { st with current := some e } x h
    | getWake p t =>
      show x ∈ (runOps rest (tryGet p t st).2).1.handledIds
      rcases hr : tryGet p t st with ⟨ro, st2⟩
      cases ro with
      | none =>
        have h2 := tryGet_none p t st st2 hr
        subst h2
        exact ih st2 x h
      | some e =>
        have hf := tryGet_some p t st e st2 hr
        refine ih st2 x ?_
        rw [hf.2.2.2.2.1]
        exact List.mem_cons_of_mem _ h

/-- Claimed events are pairwise distinct: each claim requires an unclaimed
id, sets it, and nothing unsets it. -/
theorem runOps_claims_fresh : ∀ (ops : List RvOp) (st : RvState),
    ((runOps ops st).2.map Ev.id).Nodup
    ∧ ∀ e ∈ (runOps ops st).2, e.id ∉ st.handledIds
        ∧ e.id ∈ (runOps ops st).1.handledIds := by
  intro ops
  induction ops with
  | nil =>
    intro st
    refine ⟨by simp [runOps], ?_⟩
    intro e he
    simp [runOps] at he
  | cons op rest ih =>
    intro st
    cases op with
    | publish e =>
      exact ih { st with current := some e }
    | getWake p t =>
      simp only [runOps]
      rcases hr : tryGet p t st with ⟨ro, st2⟩
      cases ro with
      | none =>
        have h2 := tryGet_none p t st st2 hr
        subst h2
        simpa using ih st2
      | some e =>
        have hf := tryGet_some p t st e st2 hr
        have ihr := ih st2
        refine ⟨?_, ?_⟩
        · simp only [Option.toList_some, List.singleton_append, List.map_cons]
          refine List.nodup_cons.mpr ⟨?_, ihr.1⟩
          intro hmem
          rcases List.mem_map.mp hmem with ⟨x, hx, hxid⟩
          have h1 := (ihr.2 x hx).1
          rw [hf.2.2.2.2.1] at h1
          exact h1 (by rw [hxid]; exact List.mem_cons_self _ _)
        · intro x hx
          simp only [Option.toList_some, List.singleton_append, List.mem_cons] at hx
          rcases hx with h | h
          · subst h
            refine ⟨hf.2.1, ?_⟩
            have hx2 : x.id ∈ st2.handledIds := by
              rw [hf.2.2.2.2.1]
              exact List.mem_cons_self _ _
            exact runOps_handled_mono rest st2 x.id hx2
          · obtain ⟨hx1, hx2⟩ := ihr.2 x h
            refine ⟨?_, hx2⟩
            intro hmem
            apply hx1
            rw [hf.2.2.2.2.1]
            exact List.mem_cons_of_mem _ hmem

/-- Predicate of the spec scenario `get`: same session `"s1"`. -/
def sessionPred : Ev → Bool := fun e => e.session == "s1"

/-- First scenario event for session `"s1"`. -/
def rvE1 : Ev := ⟨1, "msg", "s1"⟩

/-- Second scenario event for session `"s1"`. -/
def rvE2 : Ev := ⟨2, "msg", "s1"⟩

/-- C9: a `get` wake returns the rendezvous-slot event only if the event is
unclaimed, matches the type filter when given, and satisfies the predicate,
and it sets the claim flag on return; over any interleaving of intake
publications and `get` wakes no event is returned twice (claiming is
exclusive), and in the scenario with events `e1, e2` of session `"s1"` the
first claiming wake returns `e1` and the second returns `e2`, never `e1`
again. -/
theorem get_claims_exclusively :
    (∀ (pred : Ev → Bool) (etype : Option String) (st : RvState) (e : Ev) (st' : RvState),
        tryGet pred etype st = (some e, st') →
          st.current = some e ∧ e.id ∉ st.handledIds
          ∧ (etype = none ∨ etype = some e.type) ∧ pred e = true
          ∧ st'.handledIds = e.id :: st.handledIds)
    ∧ (∀ (ops : List RvOp) (st : RvState),
        ((runOps ops st).2.map Ev.id).Nodup
        ∧ ∀ e ∈ (runOps ops st).2, e.id ∉ st.handledIds
            ∧ e.id ∈ (runOps ops st).1.handledIds)
    ∧ (runOps [RvOp.publish rvE1, RvOp.getWake sessionPred none,
          RvOp.publish rvE2, RvOp.getWake sessionPred none] ⟨none, []⟩).2 = [rvE1, rvE2] := by
  refine ⟨?_, runOps_claims_fresh, by decide⟩
  intro pred etype st e st' h
  have hf := tryGet_some pred etype st e st' h
  exact ⟨hf.1, hf.2.1, hf.2.2.1, hf.2.2.2.1, hf.2.2.2.2.1⟩

/-- C9 witness: the claim-check characterisation at a concrete wake, and
exclusivity over a concrete operation sequence. -/
theorem get_claims_exclusively_witness :
    ((⟨some rvE1, []⟩ : RvState).current = some rvE1
      ∧ rvE1.id ∉ (⟨some rvE1, []⟩ : RvState).handledIds
      ∧ ((none : Option String) = none ∨ (none : Option String) = some rvE1.type)
      ∧ sessionPred rvE1 = true
      ∧ (⟨some rvE1, [1]⟩ : RvState).handledIds
          = rvE1.id :: (⟨some rvE1, []⟩ : RvState).handledIds)
    ∧ ((runOps [RvOp.publish rvE1, RvOp.getWake sessionPred none]
        ⟨none, []⟩).2.map Ev.id).Nodup :=
  ⟨get_claims_exclusively.1 sessionPred none ⟨some rvE1, []⟩ rvE1 ⟨some rvE1, [1]⟩ (by decide),
    (get_claims_exclusively.2.1 [RvOp.publish rvE1, RvOp.getWake sessionPred none]
      ⟨none, []⟩).1⟩

/-- Per-event claim flag as `_handle_event` reads it (manager.py:174). -/
def isHandled (st : RvState) (e : Ev) : Bool := st.handledIds.contains e.id

/-- Rendezvous state after the intake publishes `e1` and one waiting `get`
wakes and claims it. -/
def rvAfterClaim : RvState :=
  (runOps [RvOp.publish rvE1, RvOp.getWake sessionPred none] ⟨none, []⟩).1

/-- C10 counterexample: after a `get` claims the published event, the claim
flag is set, and dispatching that event runs zero nodes — even the hooks are
skipped by the `__handled__` guard at manager.py:174 — while the same event
unclaimed would be handled; this refutes the claim that a rendezvous claim
never prevents the event from being processed by the dispatch loop. -/
theorem claimed_event_not_dispatched_cx :
    isHandled rvAfterClaim rvE1 = true
    ∧ (handleEvent (isHandled rvAfterClaim rvE1) [scA] 3 ⟨[]⟩).steps = []
    ∧ (handleEvent (isHandled rvAfterClaim rvE1) [scA] 3 ⟨[]⟩).preHooks = false
    ∧ (handleEvent false [scA] 3 ⟨[]⟩).steps ≠ [] := by
  decide

/-- C10 amended: after the rendezvous slot is set and the waiters notified,
the event is dispatched through the node chain only when its claim flag is
still false when the dispatch task runs; an event already claimed by a
`get` is skipped entirely by `_handle_event` — no hooks, no node steps. -/
theorem dispatch_only_unclaimed_events (handled : Bool) (nodes : List NodeEntry)
    (fuel : Nat) (st : DState) :
    (handled = true → handleEvent handled nodes fuel st = ⟨false, [], false, st⟩)
    ∧ (handled = false →
        (handleEvent handled nodes fuel st).steps = (dispatch nodes fuel 0 st).1
        ∧ (handleEvent handled nodes fuel st).preHooks = true
        ∧ (handleEvent handled nodes fuel st).postHooks = true) := by
  cases handled <;> simp [handleEvent]

/-- C10 amended witness: both branches at a concrete registry. -/
theorem dispatch_only_unclaimed_witness :
    handleEvent true [scA] 3 ⟨[]⟩ = ⟨false, [], false, ⟨[]⟩⟩
    ∧ (handleEvent false [scA] 3 ⟨[]⟩).steps = (dispatch [scA] 3 0 ⟨[]⟩).1 :=
  ⟨(dispatch_only_unclaimed_events true [scA] 3 ⟨[]⟩).1 rfl,
    ((dispatch_only_unclaimed_events false [scA] 3 ⟨[]⟩).2 rfl).1⟩

end SekaiBot
